import Mathlib

/-!
Verification development for the chess engine core.

The definitions below are a shallow embedding of the board model in
`models/chess_board_broken.py`, the evaluation terms in
`models/evaluator.py`, the checkmate shortcut of `engines/mcts.py`, and the
AI-move gate of `session/game_session.py`. Mutating Python methods become
functions returning updated states; Python lists become Lean lists; board
squares are addressed by `Int` coordinates so that the source's signed
direction arithmetic carries over unchanged.
-/

inductive Color where
  | WHITE : Color
  | BLACK : Color
deriving DecidableEq, Repr

inductive PieceType where
  | PAWN : PieceType
  | ROOK : PieceType
  | KNIGHT : PieceType
  | BISHOP : PieceType
  | QUEEN : PieceType
  | KING : PieceType
deriving DecidableEq, Repr

inductive GameMode where
  | HUMAN_VS_AI : GameMode
  | HUMAN_VS_HUMAN : GameMode
deriving DecidableEq, Repr

inductive GameResult where
  | IN_PROGRESS : GameResult
  | WHITE_WINS : GameResult
  | BLACK_WINS : GameResult
  | DRAW : GameResult
deriving DecidableEq, Repr

open Color PieceType GameMode GameResult

structure Piece where
  type : PieceType
  color : Color
  has_moved : Bool := false
deriving DecidableEq, Repr

/-- The 8x8 grid of `ChessBoard.board`: a row-major list of rows. -/
abbrev Grid := List (List (Option Piece))

/-- Per-color castling-rights record (`{"kingside": ..., "queenside": ...}`). -/
structure SideRights where
  kingside : Bool
  queenside : Bool
deriving DecidableEq, Repr

/-- Both colors' castling rights (`self.castling_rights`). -/
structure CastlingRights where
  whiteR : SideRights
  blackR : SideRights
deriving DecidableEq, Repr

/-- State of `ChessBoard`.  The `kings` dict is stored as two fields; the two
history lists hold the same data the Python lists hold (move strings and
position-key strings, both as `List Char`). -/
structure ChessBoard where
  board : Grid
  current_player : Color
  kings_white : Int × Int
  kings_black : Int × Int
  castling_rights : CastlingRights
  en_passant_target : Option (Int × Int)
  halfmove_clock : Nat
  fullmove_number : Nat
  move_history : List (List Char)
  position_history : List (List Char)
deriving DecidableEq, Repr

/-- `self.kings[color]`. -/
def ChessBoard.kings (b : ChessBoard) (c : Color) : Int × Int :=
  match c with
  | WHITE => b.kings_white
  | BLACK => b.kings_black

/-- `self.castling_rights[color]`. -/
def CastlingRights.forColor (cr : CastlingRights) (c : Color) : SideRights :=
  match c with
  | WHITE => cr.whiteR
  | BLACK => cr.blackR

/-- The opponent color (`Color.BLACK if color == Color.WHITE else Color.WHITE`). -/
def other (c : Color) : Color :=
  match c with
  | WHITE => BLACK
  | BLACK => WHITE

/-- Read `self.board[r][c]`; all source reads are bounds-guarded (by explicit
`0 <= x < 8` tests or loop ranges), so out-of-range reads answer `none`. -/
def getSq (g : Grid) (r c : Int) : Option Piece :=
  if 0 ≤ r ∧ r < 8 ∧ 0 ≤ c ∧ c < 8 then
    (g.getD r.toNat []).getD c.toNat none
  else
    none

/-- Write `self.board[r][c] = v` (in-range writes only, as in the source). -/
def setSq (g : Grid) (r c : Int) (v : Option Piece) : Grid :=
  if 0 ≤ r ∧ r < 8 ∧ 0 ≤ c ∧ c < 8 then
    g.set r.toNat ((g.getD r.toNat []).set c.toNat v)
  else
    g

/-- The 64 squares in the iteration order `for row in range(8): for col in range(8)`. -/
def squares : List (Int × Int) :=
  (List.range 8).flatMap (fun r => (List.range 8).map (fun c => ((r : Int), (c : Int))))

/-- An 8x8 grid (8 rows of 8 columns). -/
def wfGrid (g : Grid) : Prop :=
  g.length = 8 ∧ ∀ row ∈ g, row.length = 8

/-- `_setup_initial_position` together with `__init__`'s scalar fields. -/
def backRank (c : Color) : List (Option Piece) :=
  [some ⟨ROOK, c, false⟩, some ⟨KNIGHT, c, false⟩, some ⟨BISHOP, c, false⟩,
   some ⟨QUEEN, c, false⟩, some ⟨KING, c, false⟩, some ⟨BISHOP, c, false⟩,
   some ⟨KNIGHT, c, false⟩, some ⟨ROOK, c, false⟩]

def pawnRank (c : Color) : List (Option Piece) :=
  List.replicate 8 (some ⟨PAWN, c, false⟩)

def emptyRank : List (Option Piece) := List.replicate 8 none

def initial_board : ChessBoard where
  board := [backRank BLACK, pawnRank BLACK, emptyRank, emptyRank,
            emptyRank, emptyRank, pawnRank WHITE, backRank WHITE]
  current_player := WHITE
  kings_white := (7, 4)
  kings_black := (0, 4)
  castling_rights := ⟨⟨true, true⟩, ⟨true, true⟩⟩
  en_passant_target := none
  halfmove_clock := 0
  fullmove_number := 1
  move_history := []
  position_history := []

/-- `_get_raw_pawn_moves`.  The `elif` on the en-passant test fires whenever the
diagonal square does not hold an enemy piece (empty square or own piece). -/
def get_raw_pawn_moves (b : ChessBoard) (row col : Int) : List (Int × Int) :=
  match getSq b.board row col with
  | none => []
  | some piece =>
    let direction : Int := if piece.color = WHITE then -1 else 1
    let start_row : Int := if piece.color = WHITE then 6 else 1
    let new_row := row + direction
    let forward : List (Int × Int) :=
      if 0 ≤ new_row ∧ new_row < 8 ∧ getSq b.board new_row col = none then
        (new_row, col) ::
          (if row = start_row ∧ getSq b.board (new_row + direction) col = none then
            [(new_row + direction, col)]
          else [])
      else []
    let caps : List (Int × Int) :=
      ([-1, 1] : List Int).flatMap (fun dc =>
        let new_col := col + dc
        if 0 ≤ new_col ∧ new_col < 8 ∧ 0 ≤ new_row ∧ new_row < 8 then
          match getSq b.board new_row new_col with
          | some target =>
            if target.color ≠ piece.color then [(new_row, new_col)]
            else if b.en_passant_target = some (new_row, new_col) then [(new_row, new_col)]
            else []
          | none =>
            if b.en_passant_target = some (new_row, new_col) then [(new_row, new_col)]
            else []
        else [])
    forward ++ caps

/-- One ray of `_get_sliding_moves`' inner `while` loop, with enough fuel for
the at most 8 squares of a ray. -/
def slideFrom (g : Grid) (pieceColor : Color) (r c dr dc : Int) : Nat → List (Int × Int)
  | 0 => []
  | fuel + 1 =>
    if 0 ≤ r ∧ r < 8 ∧ 0 ≤ c ∧ c < 8 then
      match getSq g r c with
      | none => (r, c) :: slideFrom g pieceColor (r + dr) (c + dc) dr dc fuel
      | some target => if target.color ≠ pieceColor then [(r, c)] else []
    else []

/-- `_get_sliding_moves`. -/
def get_sliding_moves (b : ChessBoard) (row col : Int) (directions : List (Int × Int)) :
    List (Int × Int) :=
  match getSq b.board row col with
  | none => []
  | some piece =>
    directions.flatMap (fun d => slideFrom b.board piece.color (row + d.1) (col + d.2) d.1 d.2 8)

/-- `_get_raw_rook_moves`. -/
def get_raw_rook_moves (b : ChessBoard) (row col : Int) : List (Int × Int) :=
  get_sliding_moves b row col [(0, 1), (0, -1), (1, 0), (-1, 0)]

/-- `_get_raw_bishop_moves`. -/
def get_raw_bishop_moves (b : ChessBoard) (row col : Int) : List (Int × Int) :=
  get_sliding_moves b row col [(1, 1), (1, -1), (-1, 1), (-1, -1)]

/-- `_get_raw_queen_moves`. -/
def get_raw_queen_moves (b : ChessBoard) (row col : Int) : List (Int × Int) :=
  get_sliding_moves b row col [(0, 1), (0, -1), (1, 0), (-1, 0), (1, 1), (1, -1), (-1, 1), (-1, -1)]

/-- `_get_raw_knight_moves`. -/
def get_raw_knight_moves (b : ChessBoard) (row col : Int) : List (Int × Int) :=
  match getSq b.board row col with
  | none => []
  | some piece =>
    ([(2, 1), (2, -1), (-2, 1), (-2, -1), (1, 2), (1, -2), (-1, 2), (-1, -2)] :
        List (Int × Int)).flatMap (fun d =>
      let new_row := row + d.1
      let new_col := col + d.2
      if 0 ≤ new_row ∧ new_row < 8 ∧ 0 ≤ new_col ∧ new_col < 8 then
        match getSq b.board new_row new_col with
        | none => [(new_row, new_col)]
        | some target => if target.color ≠ piece.color then [(new_row, new_col)] else []
      else [])

/-- `_get_raw_king_moves` (one square in any direction, no castling). -/
def get_raw_king_moves (b : ChessBoard) (row col : Int) : List (Int × Int) :=
  match getSq b.board row col with
  | none => []
  | some piece =>
    ([(-1, -1), (-1, 0), (-1, 1), (0, -1), (0, 1), (1, -1), (1, 0), (1, 1)] :
        List (Int × Int)).flatMap (fun d =>
      let new_row := row + d.1
      let new_col := col + d.2
      if 0 ≤ new_row ∧ new_row < 8 ∧ 0 ≤ new_col ∧ new_col < 8 then
        match getSq b.board new_row new_col with
        | none => [(new_row, new_col)]
        | some target => if target.color ≠ piece.color then [(new_row, new_col)] else []
      else [])

/-- `_get_raw_piece_moves`. -/
def get_raw_piece_moves (b : ChessBoard) (row col : Int) : List (Int × Int) :=
  match getSq b.board row col with
  | none => []
  | some piece =>
    match piece.type with
    | PAWN => get_raw_pawn_moves b row col
    | ROOK => get_raw_rook_moves b row col
    | KNIGHT => get_raw_knight_moves b row col
    | BISHOP => get_raw_bishop_moves b row col
    | QUEEN => get_raw_queen_moves b row col
    | KING => get_raw_king_moves b row col

/-- `_get_castling_moves`.  Note the source only checks the rook's type and
`has_moved` flag, not its color. -/
def get_castling_moves (b : ChessBoard) (row col : Int) : List (Int × Int) :=
  match getSq b.board row col with
  | none => []
  | some piece =>
    if piece.type ≠ KING ∨ piece.has_moved then []
    else
      let rights := b.castling_rights.forColor piece.color
      let unmovedRook : Option Piece → Bool := fun o =>
        match o with
        | some rk => decide (rk.type = ROOK) && !rk.has_moved
        | none => false
      let kingside : List (Int × Int) :=
        if rights.kingside ∧ getSq b.board row 5 = none ∧ getSq b.board row 6 = none ∧
            unmovedRook (getSq b.board row 7) = true then
          [(row, 6)]
        else []
      let queenside : List (Int × Int) :=
        if rights.queenside ∧ getSq b.board row 1 = none ∧ getSq b.board row 2 = none ∧
            getSq b.board row 3 = none ∧ unmovedRook (getSq b.board row 0) = true then
          [(row, 2)]
        else []
      kingside ++ queenside

/-- `is_in_check`: scan all opponent pieces' raw moves for the cached king square. -/
def is_in_check (b : ChessBoard) (color : Color) : Bool :=
  let king_pos := b.kings color
  let opponent_color := other color
  squares.any (fun rc =>
    match getSq b.board rc.1 rc.2 with
    | some piece =>
      decide (piece.color = opponent_color) &&
        decide (king_pos ∈ get_raw_piece_moves b rc.1 rc.2)
    | none => false)

/-- `_is_square_attacked`. -/
def is_square_attacked (b : ChessBoard) (row col : Int) (defending_color : Color) : Bool :=
  let attacking_color := other defending_color
  squares.any (fun rc =>
    match getSq b.board rc.1 rc.2 with
    | some piece =>
      decide (piece.color = attacking_color) &&
        decide ((row, col) ∈ get_raw_piece_moves b rc.1 rc.2)
    | none => false)

/-- `_make_move_unchecked`: `none` when the from-square is empty (the source
returns `False`), otherwise the mutated board. -/
def make_move_unchecked (b : ChessBoard) (from_row from_col to_row to_col : Int) :
    Option ChessBoard :=
  match getSq b.board from_row from_col with
  | none => none
  | some piece =>
    let g0 :=
      if piece.type = KING ∧ (to_col - from_col).natAbs = 2 then
        -- castling: move the rook (marking it moved) before moving the king
        let rook_col : Int := if to_col > from_col then 7 else 0
        let rook_new_col : Int := if to_col > from_col then 5 else 3
        let rook := getSq b.board from_row rook_col
        setSq (setSq b.board from_row rook_new_col
            (rook.map (fun rk => { rk with has_moved := true }))) from_row rook_col none
      else if piece.type = PAWN ∧ b.en_passant_target = some (to_row, to_col) then
        -- en passant: clear the captured pawn's square
        let captured_pawn_row := to_row + (if piece.color = WHITE then 1 else -1)
        setSq b.board captured_pawn_row to_col none
      else b.board
    let g1 := setSq g0 to_row to_col (some { piece with has_moved := true })
    let g2 := setSq g1 from_row from_col none
    some { b with
      board := g2
      kings_white := if piece.type = KING ∧ piece.color = WHITE then (to_row, to_col)
        else b.kings_white
      kings_black := if piece.type = KING ∧ piece.color = BLACK then (to_row, to_col)
        else b.kings_black }

/-- `_is_legal_move`: special screening for castling-shaped king moves, then
try the move on a copy and test for self-check.  Note the source never checks
that the move obeys the moving piece's movement rules or that the piece
belongs to the side to move. -/
def is_legal_move (b : ChessBoard) (from_row from_col to_row to_col : Int) : Bool :=
  let castlingOk : Bool :=
    match getSq b.board from_row from_col with
    | some piece =>
      if piece.type = KING ∧ (to_col - from_col).natAbs = 2 then
        if is_in_check b piece.color then false
        else
          let step : Int := if to_col > from_col then 1 else -1
          -- `range(start_col + step, end_col + step, step)`: the two crossed columns
          !((([from_col + step, from_col + 2 * step] : List Int)).any
            (fun c => is_square_attacked b from_row c piece.color))
      else true
    | none => true
  castlingOk &&
    (match make_move_unchecked b from_row from_col to_row to_col with
     | some temp => !is_in_check temp b.current_player
     | none => false)

/-- `get_piece_moves`: raw moves (plus castling for kings) filtered by
`_is_legal_move`; empty for an empty square or an opponent piece. -/
def get_piece_moves (b : ChessBoard) (row col : Int) : List (Int × Int) :=
  match getSq b.board row col with
  | none => []
  | some piece =>
    if piece.color ≠ b.current_player then []
    else
      let moves := get_raw_piece_moves b row col ++
        (if piece.type = KING then get_castling_moves b row col else [])
      moves.filter (fun t => is_legal_move b row col t.1 t.2)

/-- `get_all_legal_moves`: 4-tuples `(from_row, from_col, to_row, to_col)` for
every piece of the side to move. -/
def get_all_legal_moves (b : ChessBoard) : List (Int × Int × Int × Int) :=
  squares.flatMap (fun rc =>
    match getSq b.board rc.1 rc.2 with
    | some piece =>
      if piece.color = b.current_player then
        (get_piece_moves b rc.1 rc.2).map (fun t => (rc.1, rc.2, t.1, t.2))
      else []
    | none => [])

/-- `Color.value` ("white" / "black"). -/
def colorVal (c : Color) : List Char :=
  match c with
  | WHITE => "white".data
  | BLACK => "black".data

/-- `piece.color.value[0]`. -/
def colorChar (c : Color) : Char :=
  match c with
  | WHITE => 'w'
  | BLACK => 'b'

/-- `piece.type.value`. -/
def typeChar (t : PieceType) : Char :=
  match t with
  | PAWN => 'P'
  | ROOK => 'R'
  | KNIGHT => 'N'
  | BISHOP => 'B'
  | QUEEN => 'Q'
  | KING => 'K'

/-- `str(bool)`. -/
def boolStr (x : Bool) : List Char :=
  if x then "True".data else "False".data

/-- `str(int)`. -/
def intStr (n : Int) : List Char := (toString n).data

/-- The per-square contents the position key encodes: color and kind. -/
def placementList (b : ChessBoard) : List (Option (Color × PieceType)) :=
  squares.map (fun rc => (getSq b.board rc.1 rc.2).map (fun p => (p.color, p.type)))

/-- One square's contribution to the position key: `f"{color[0]}{type}"` or `"."`. -/
def encodeSquareKey (o : Option (Color × PieceType)) : List Char :=
  match o with
  | some ct => [colorChar ct.1, typeChar ct.2]
  | none => ['.']

/-- `str(self.castling_rights)`: Python renders the dict with `repr` of the
enum keys, e.g. `{<Color.WHITE: 'white'>: {'kingside': True, ...`. -/
def castlingChunkA : List Char :=
  "\x7b<Color.WHITE: \x27white\x27>: \x7b\x27kingside\x27: ".data

def castlingChunkB : List Char := ", \x27queenside\x27: ".data

def castlingChunkC : List Char :=
  "\x7d, <Color.BLACK: \x27black\x27>: \x7b\x27kingside\x27: ".data

def castlingChunkD : List Char := "\x7d\x7d".data

def castlingStr (cr : CastlingRights) : List Char :=
  castlingChunkA ++ boolStr cr.whiteR.kingside ++ castlingChunkB ++
    boolStr cr.whiteR.queenside ++ castlingChunkC ++ boolStr cr.blackR.kingside ++
    castlingChunkB ++ boolStr cr.blackR.queenside ++ castlingChunkD

/-- `str(self.en_passant_target)`: `"None"` or `"(r, c)"`. -/
def epStr (ep : Option (Int × Int)) : List Char :=
  match ep with
  | none => "None".data
  | some rc => "(".data ++ intStr rc.1 ++ ", ".data ++ intStr rc.2 ++ ")".data

/-- `_get_position_key`: placement tokens, then side to move, then the
castling dict string, then the en-passant target string. -/
def get_position_key (b : ChessBoard) : List Char :=
  (placementList b).flatMap encodeSquareKey ++ colorVal b.current_player ++
    castlingStr b.castling_rights ++ epStr b.en_passant_target

/-- The move string `f"{chr(97+from_col)}{8-from_row}{chr(97+to_col)}{8-to_row}"`. -/
def moveStr (from_row from_col to_row to_col : Int) : List Char :=
  [Char.ofNat (97 + from_col).toNat] ++ intStr (8 - from_row) ++
    [Char.ofNat (97 + to_col).toNat] ++ intStr (8 - to_row)

/-- ASCII upper-casing as `str.upper` acts on the promotion letters. -/
def upperChar (ch : Char) : Char :=
  if 'a' ≤ ch ∧ ch ≤ 'z' then Char.ofNat (ch.toNat - 32) else ch

def upperStr (s : List Char) : List Char := s.map upperChar

/-- `promotion_map.get(promotion_piece.upper(), PieceType.QUEEN)`. -/
def promotion_map_get (s : List Char) : PieceType :=
  if s = ['Q'] then QUEEN
  else if s = ['R'] then ROOK
  else if s = ['B'] then BISHOP
  else if s = ['N'] then KNIGHT
  else QUEEN

/-- The promotion kind `make_move` installs: queen by default, otherwise the
kind named by the (case-insensitively upper-cased) marker when recognised. -/
def promoType (promotion_piece : Option (List Char)) : PieceType :=
  match promotion_piece with
  | none => QUEEN
  | some s => if s = [] then QUEEN else promotion_map_get (upperStr s)

/-- Clear one color's kingside right. -/
def clearKingside (cr : CastlingRights) (c : Color) : CastlingRights :=
  match c with
  | WHITE => { cr with whiteR := { cr.whiteR with kingside := false } }
  | BLACK => { cr with blackR := { cr.blackR with kingside := false } }

/-- Clear one color's queenside right. -/
def clearQueenside (cr : CastlingRights) (c : Color) : CastlingRights :=
  match c with
  | WHITE => { cr with whiteR := { cr.whiteR with queenside := false } }
  | BLACK => { cr with blackR := { cr.blackR with queenside := false } }

/-- Clear both rights of one color (a king move). -/
def clearBothRights (cr : CastlingRights) (c : Color) : CastlingRights :=
  match c with
  | WHITE => { cr with whiteR := ⟨false, false⟩ }
  | BLACK => { cr with blackR := ⟨false, false⟩ }

/-- `make_move`: validation via `_is_legal_move`, then state updates in source
order: en-passant target (before `_make_move_unchecked`, as in the source),
the move itself, promotion, castling rights, counters, history logs, player
switch.  Returns the Python boolean with the resulting state. -/
def make_move (b : ChessBoard) (from_row from_col to_row to_col : Int)
    (special_move_type : Option (List Char)) (promotion_piece : Option (List Char)) :
    Bool × ChessBoard :=
  if ¬ is_legal_move b from_row from_col to_row to_col then (false, b)
  else
    match getSq b.board from_row from_col with
    | none => (false, b)  -- unreachable: a legal move starts from an occupied square
    | some piece =>
      let captured_piece := getSq b.board to_row to_col
      let newEp : Option (Int × Int) :=
        if piece.type = PAWN ∧ (to_row - from_row).natAbs = 2 then
          some ((from_row + to_row) / 2, from_col)
        else none
      let b1 := { b with en_passant_target := newEp }
      match make_move_unchecked b1 from_row from_col to_row to_col with
      | none => (false, b1)
      | some b2 =>
        let promotedGrid : Grid :=
          if piece.type = PAWN ∧ (to_row = 0 ∨ to_row = 7) then
            setSq b2.board to_row to_col (some ⟨promoType promotion_piece, piece.color, true⟩)
          else b2.board
        let b3 := { b2 with board := promotedGrid }
        let b4 :=
          if piece.type = KING then
            { b3 with castling_rights := clearBothRights b3.castling_rights piece.color }
          else if piece.type = ROOK ∧ (from_row = 0 ∨ from_row = 7) then
            if from_col = 0 then
              { b3 with castling_rights := clearQueenside b3.castling_rights piece.color }
            else if from_col = 7 then
              { b3 with castling_rights := clearKingside b3.castling_rights piece.color }
            else b3
          else b3
        let newClock : Nat :=
          if piece.type = PAWN ∨ captured_piece.isSome then 0 else b4.halfmove_clock + 1
        let b5 := { b4 with halfmove_clock := newClock }
        let newFull : Nat :=
          if b5.current_player = BLACK then b5.fullmove_number + 1 else b5.fullmove_number
        let b6 := { b5 with fullmove_number := newFull }
        let b7 := { b6 with move_history :=
          b6.move_history ++ [moveStr from_row from_col to_row to_col] }
        let b8 := { b7 with position_history :=
          b7.position_history ++ [get_position_key b7] }
        let newPlayer : Color :=
          if b8.current_player = WHITE then BLACK else WHITE
        let b9 := { b8 with current_player := newPlayer }
        (true, b9)

/-- `is_checkmate`. -/
def is_checkmate (b : ChessBoard) : Bool :=
  is_in_check b b.current_player && (get_all_legal_moves b).isEmpty

/-- `is_stalemate`. -/
def is_stalemate (b : ChessBoard) : Bool :=
  !is_in_check b b.current_player && (get_all_legal_moves b).isEmpty

/-- `is_draw_by_fifty_moves`. -/
def is_draw_by_fifty_moves (b : ChessBoard) : Bool :=
  decide (100 ≤ b.halfmove_clock)

/-- The non-king pieces of one color with their squares, in scan order. -/
def nonKingPieces (b : ChessBoard) (c : Color) : List (PieceType × Int × Int) :=
  squares.filterMap (fun rc =>
    match getSq b.board rc.1 rc.2 with
    | some p => if p.type ≠ KING ∧ p.color = c then some (p.type, rc.1, rc.2) else none
    | none => none)

/-- `is_insufficient_material`: the source only covers K vs K and
K+minor vs K. -/
def is_insufficient_material (b : ChessBoard) : Bool :=
  let white_pieces := nonKingPieces b WHITE
  let black_pieces := nonKingPieces b BLACK
  if white_pieces.length = 0 ∧ black_pieces.length = 0 then true
  else if (white_pieces.length = 1 ∧ black_pieces.length = 0 ∧
        ((white_pieces.headD (PAWN, 0, 0)).1 = BISHOP ∨
          (white_pieces.headD (PAWN, 0, 0)).1 = KNIGHT)) ∨
      (black_pieces.length = 1 ∧ white_pieces.length = 0 ∧
        ((black_pieces.headD (PAWN, 0, 0)).1 = BISHOP ∨
          (black_pieces.headD (PAWN, 0, 0)).1 = KNIGHT)) then true
  else false

/-- `is_threefold_repetition`: at least 8 recorded entries and the current key
counted at least twice among them. -/
def is_threefold_repetition (b : ChessBoard) : Bool :=
  if b.position_history.length < 8 then false
  else decide (2 ≤ b.position_history.count (get_position_key b))

/-- `get_game_result`. -/
def get_game_result (b : ChessBoard) : GameResult :=
  if is_checkmate b then
    if b.current_player = WHITE then BLACK_WINS else WHITE_WINS
  else if is_stalemate b || is_draw_by_fifty_moves b ||
      is_insufficient_material b || is_threefold_repetition b then DRAW
  else IN_PROGRESS

/-! Evaluator (`models/evaluator.py`). -/

/-- `ChessEvaluator.piece_values`. -/
def piece_values (t : PieceType) : Int :=
  match t with
  | PAWN => 100
  | KNIGHT => 320
  | BISHOP => 330
  | ROOK => 500
  | QUEEN => 900
  | KING => 20000

/-- `_get_attackers`: pieces of `attacking_color` whose raw moves cover the
target square, with their squares, in scan order. -/
def get_attackers (b : ChessBoard) (target_row target_col : Int) (attacking_color : Color) :
    List (Int × Int × Piece) :=
  squares.filterMap (fun rc =>
    match getSq b.board rc.1 rc.2 with
    | some piece =>
      if piece.color = attacking_color ∧
          (target_row, target_col) ∈ get_raw_piece_moves b rc.1 rc.2 then
        some (rc.1, rc.2, piece)
      else none
    | none => none)

/-- One iteration of `_evaluate_threats`' loop: update the running score from
the piece on one square. -/
def threatStep (b : ChessBoard) (score : Int) (rc : Int × Int) : Int :=
  match getSq b.board rc.1 rc.2 with
  | none => score
  | some piece =>
    let attackers := get_attackers b rc.1 rc.2 (other piece.color)
    let defenders := get_attackers b rc.1 rc.2 piece.color
    if attackers ≠ [] ∧ defenders.length < attackers.length then
      let threat_value := piece_values piece.type / 10
      if piece.color = WHITE then score - threat_value else score + threat_value
    else score

/-- `_evaluate_threats`: running-score loop over all squares. -/
def evaluate_threats (b : ChessBoard) : Int :=
  squares.foldl (threatStep b) 0

/-- `_evaluate_check_and_mate`. -/
def evaluate_check_and_mate (b : ChessBoard) : Int :=
  if is_checkmate b then
    if b.current_player = WHITE then -100000 else 100000
  else if is_in_check b b.current_player then
    if b.current_player = WHITE then -50 else 50
  else 0

/-- Per-square threat term, stated by the amended reading of the threat rule:
a piece with at least one attacker and strictly more attackers than defenders
costs its holder one tenth (integer division) of its material value; there is
no hanging-piece or exchange term. -/
def threatTermAmended (b : ChessBoard) (rc : Int × Int) : Int :=
  match getSq b.board rc.1 rc.2 with
  | none => 0
  | some piece =>
    let attackers := get_attackers b rc.1 rc.2 (other piece.color)
    let defenders := get_attackers b rc.1 rc.2 piece.color
    if attackers ≠ [] ∧ defenders.length < attackers.length then
      if piece.color = WHITE then -(piece_values piece.type / 10)
      else piece_values piece.type / 10
    else 0

/-- The amended threat rule as a sum of independent per-square terms. -/
def threatsAmendedSpec (b : ChessBoard) : Int :=
  (squares.map (threatTermAmended b)).sum

/-! MCTS (`engines/mcts.py`).  The claims touch the synchronous prefix of
`ChessMCTS.search`: legal-move enumeration and the mate-in-one shortcut.  The
tree search after the shortcut (time loop, node statistics, final child
selection) is abstracted as an arbitrary continuation `tree`, since the
shortcut returns before any of it runs. -/

/-- Apply a 4-tuple move descriptor to (a copy of) a board, as
`temp_board.make_move(move[0], move[1], move[2], move[3])`. -/
def applyMove (b : ChessBoard) (m : Int × Int × Int × Int) : Bool × ChessBoard :=
  make_move b m.1 m.2.1 m.2.2.1 m.2.2.2 none none

/-- `_find_checkmate_move`: the first move whose application succeeds and
leaves the opponent checkmated. -/
def find_checkmate_move (b : ChessBoard) : List (Int × Int × Int × Int) →
    Option (Int × Int × Int × Int)
  | [] => none
  | m :: rest =>
    let res := applyMove b m
    if res.1 ∧ is_checkmate res.2 then some m else find_checkmate_move b rest

/-- `ChessMCTS.search` up to the mate-in-one shortcut; `tree` stands for the
simulation loop and final selection that only run when the shortcut misses. -/
def search_with (tree : ChessBoard → Option (Int × Int × Int × Int)) (b : ChessBoard) :
    Option (Int × Int × Int × Int) :=
  let legal_moves := get_all_legal_moves b
  if legal_moves = [] then none
  else
    match find_checkmate_move b legal_moves with
    | some checkmate_move => some checkmate_move
    | none => tree b

/-! Session façade (`session/game_session.py`). -/

/-- The per-session state `get_ai_move` consults: the mode fixed at session
creation and the session's board. -/
structure GameSession where
  mode : GameMode
  board : ChessBoard

/-- `GameSession.get_ai_move`, with the engine (`self.mcts_engine.search`)
abstracted as a function parameter: the engine runs only when the session is
human-vs-AI and Black is to move; every other state answers `None` without
consulting the engine. -/
def get_ai_move (s : GameSession) (engine : ChessBoard → Option (Int × Int × Int × Int)) :
    Option (Int × Int × Int × Int) :=
  if s.mode = HUMAN_VS_AI ∧ s.board.current_player = BLACK then
    engine s.board
  else none

/-! Decoder for the position key, used to establish that the key string
determines placement, side to move, castling rights and en-passant target.
Decoding is positional: a `.` token covers one character, a piece token two,
so the 64 square tokens, the player word, the fixed-shape castling dict text
and the en-passant text can be read back deterministically. -/

def decColor (c : Char) : Option Color :=
  if c = 'w' then some WHITE else if c = 'b' then some BLACK else none

def decType (c : Char) : Option PieceType :=
  if c = 'P' then some PAWN
  else if c = 'R' then some ROOK
  else if c = 'N' then some KNIGHT
  else if c = 'B' then some BISHOP
  else if c = 'Q' then some QUEEN
  else if c = 'K' then some KING
  else none

def decodeSquares : Nat → List Char → Option (List (Option (Color × PieceType)) × List Char)
  | 0, cs => some ([], cs)
  | _ + 1, [] => none
  | n + 1, c :: cs =>
    if c = '.' then
      match decodeSquares n cs with
      | some (l, r) => some (none :: l, r)
      | none => none
    else
      match cs with
      | [] => none
      | c2 :: cs2 =>
        match decColor c, decType c2 with
        | some co, some t =>
          match decodeSquares n cs2 with
          | some (l, r) => some (some (co, t) :: l, r)
          | none => none
        | _, _ => none

def decodePlayer : List Char → Option (Color × List Char)
  | 'w' :: 'h' :: 'i' :: 't' :: 'e' :: r => some (WHITE, r)
  | 'b' :: 'l' :: 'a' :: 'c' :: 'k' :: r => some (BLACK, r)
  | _ => none

/-- Consume an expected literal chunk from the front of the text. -/
def dropChunk : List Char → List Char → Option (List Char)
  | [], cs => some cs
  | _ :: _, [] => none
  | p :: ps, c :: cs => if c = p then dropChunk ps cs else none

def decodeBool : List Char → Option (Bool × List Char)
  | 'T' :: 'r' :: 'u' :: 'e' :: r => some (true, r)
  | 'F' :: 'a' :: 'l' :: 's' :: 'e' :: r => some (false, r)
  | _ => none

def decodeCastling (cs : List Char) : Option (CastlingRights × List Char) :=
  match dropChunk castlingChunkA cs with
  | none => none
  | some r1 =>
    match decodeBool r1 with
    | none => none
    | some (wk, r2) =>
      match dropChunk castlingChunkB r2 with
      | none => none
      | some r3 =>
        match decodeBool r3 with
        | none => none
        | some (wq, r4) =>
          match dropChunk castlingChunkC r4 with
          | none => none
          | some r5 =>
            match decodeBool r5 with
            | none => none
            | some (bk, r6) =>
              match dropChunk castlingChunkB r6 with
              | none => none
              | some r7 =>
                match decodeBool r7 with
                | none => none
                | some (bq, r8) =>
                  match dropChunk castlingChunkD r8 with
                  | none => none
                  | some r9 => some (⟨⟨wk, wq⟩, ⟨bk, bq⟩⟩, r9)

def decDigit (c : Char) : Option Int :=
  if '0' ≤ c ∧ c ≤ '9' then some ((c.toNat : Int) - 48) else none

def decodeEp : List Char → Option (Option (Int × Int) × List Char)
  | 'N' :: 'o' :: 'n' :: 'e' :: r => some (none, r)
  | '(' :: c1 :: ',' :: ' ' :: c2 :: ')' :: r =>
    match decDigit c1, decDigit c2 with
    | some a, some d => some (some (a, d), r)
    | _, _ => none
  | _ => none

def decodeKey (cs : List Char) :
    Option (List (Option (Color × PieceType)) × Color × CastlingRights × Option (Int × Int)) :=
  match decodeSquares 64 cs with
  | none => none
  | some (pl, r1) =>
    match decodePlayer r1 with
    | none => none
    | some (p, r2) =>
      match decodeCastling r2 with
      | none => none
      | some (cr, r3) =>
        match decodeEp r3 with
        | none => none
        | some (ep, r4) =>
          match r4 with
          | [] => some (pl, p, cr, ep)
          | _ :: _ => none

/-- The en-passant target, when set, names a board square (single-digit
coordinates); this is the only shape `make_move` ever stores. -/
def epInRange (b : ChessBoard) : Bool :=
  match b.en_passant_target with
  | none => true
  | some rc => decide (0 ≤ rc.1 ∧ rc.1 < 8 ∧ 0 ≤ rc.2 ∧ rc.2 < 8)

/-! Concrete positions used by the counterexamples and witnesses. -/

/-- Build a board from a grid, side to move and the two king squares, with
fresh scalar state. -/
def mkBoard (g : Grid) (cp : Color) (kw kb : Int × Int) : ChessBoard :=
  { board := g, current_player := cp, kings_white := kw, kings_black := kb,
    castling_rights := ⟨⟨true, true⟩, ⟨true, true⟩⟩, en_passant_target := none,
    halfmove_clock := 0, fullmove_number := 1, move_history := [],
    position_history := [] }

/-- King and same-colored bishop on each side (both bishops on dark squares):
insufficient material by the specification, not detected by the source. -/
def insuffBB : ChessBoard := mkBoard
  [[none, none, none, none, some ⟨KING, BLACK, false⟩, some ⟨BISHOP, BLACK, false⟩, none, none],
   emptyRank, emptyRank, emptyRank, emptyRank, emptyRank, emptyRank,
   [none, none, some ⟨BISHOP, WHITE, false⟩, none, some ⟨KING, WHITE, false⟩, none, none, none]]
  WHITE (7, 4) (0, 4)

/-- King and knight on each side: insufficient material by the specification,
not detected by the source. -/
def insuffNN : ChessBoard := mkBoard
  [[none, none, none, none, some ⟨KING, BLACK, false⟩, none, some ⟨KNIGHT, BLACK, false⟩, none],
   emptyRank, emptyRank, emptyRank, emptyRank, emptyRank, emptyRank,
   [none, some ⟨KNIGHT, WHITE, false⟩, none, none, some ⟨KING, WHITE, false⟩, none, none, none]]
  WHITE (7, 4) (0, 4)

/-- A white pawn one step from the last rank with the landing square empty. -/
def promoBoard : ChessBoard := mkBoard
  [[none, none, none, none, none, none, none, some ⟨KING, BLACK, true⟩],
   [some ⟨PAWN, WHITE, true⟩, none, none, none, none, none, none, none],
   emptyRank, emptyRank, emptyRank, emptyRank, emptyRank,
   [none, none, none, none, none, none, none, some ⟨KING, WHITE, true⟩]]
  WHITE (7, 7) (0, 7)

/-- A hanging white pawn: attacked once (rook on the file), defended by
nobody; no other piece on the board has any attacker. -/
def threatBoard : ChessBoard := mkBoard
  [[none, none, none, none, some ⟨ROOK, BLACK, false⟩, none, none, some ⟨KING, BLACK, false⟩],
   emptyRank, emptyRank, emptyRank,
   [none, none, none, none, some ⟨PAWN, WHITE, false⟩, none, none, none],
   emptyRank, emptyRank,
   [some ⟨KING, WHITE, false⟩, none, none, none, none, none, none, none]]
  WHITE (7, 0) (0, 7)

/-- White to move, in check from the rook, with legal escapes (not mate). -/
def checkBoard : ChessBoard := mkBoard
  [[some ⟨KING, BLACK, false⟩, none, none, none, some ⟨ROOK, BLACK, false⟩, none, none, none],
   emptyRank, emptyRank, emptyRank, emptyRank, emptyRank, emptyRank,
   [none, none, none, none, some ⟨KING, WHITE, false⟩, none, none, none]]
  WHITE (7, 4) (0, 0)

/-- Black to move; the queen mates in one on b2 (square (6,1)), protected by
the black king on b3. -/
def mateInOne : ChessBoard := mkBoard
  [emptyRank, emptyRank, emptyRank, emptyRank, emptyRank,
   [none, some ⟨KING, BLACK, true⟩, none, none, none, none, none, none],
   [none, none, none, some ⟨QUEEN, BLACK, true⟩, none, none, none, none],
   [some ⟨KING, WHITE, true⟩, none, none, none, none, none, none, none]]
  BLACK (7, 0) (5, 1)

/-- The checkmated position reached from `mateInOne` after Qb2#. -/
def matedBoard : ChessBoard := mkBoard
  [emptyRank, emptyRank, emptyRank, emptyRank, emptyRank,
   [none, some ⟨KING, BLACK, true⟩, none, none, none, none, none, none],
   [none, some ⟨QUEEN, BLACK, true⟩, none, none, none, none, none, none],
   [some ⟨KING, WHITE, true⟩, none, none, none, none, none, none, none]]
  WHITE (7, 0) (5, 1)

/-- Bare kings, white to move. -/
def kkBase : ChessBoard := mkBoard
  [[none, none, none, none, none, none, none, some ⟨KING, BLACK, true⟩],
   emptyRank, emptyRank, emptyRank, emptyRank, emptyRank, emptyRank,
   [some ⟨KING, WHITE, true⟩, none, none, none, none, none, none, none]]
  WHITE (7, 0) (0, 7)

/-- Bare kings with the current key recorded eight times in
`position_history`. -/
def kkRepeat : ChessBoard :=
  { kkBase with position_history := List.replicate 8 (get_position_key kkBase) }

/-- The initial position with different move counters. -/
def initial_board_counters : ChessBoard :=
  { initial_board with halfmove_clock := 7, fullmove_number := 42 }

/-- A human-vs-AI session whose board has White to move. -/
def whiteAiSession : GameSession := ⟨HUMAN_VS_AI, initial_board⟩

/-- A stub engine used to show `get_ai_move` ignores the engine outside its
firing condition. -/
def stubEngine : ChessBoard → Option (Int × Int × Int × Int) := fun _ => some (0, 0, 0, 0)

/-! Helper lemmas. -/

theorem dropChunk_pre : ∀ (p rest : List Char), dropChunk p (p ++ rest) = some rest := by
  intro p
  induction p with
  | nil => intro rest; rfl
  | cons c ps ih => intro rest; simp [dropChunk, ih]

theorem decodePlayer_encode (p : Color) (r : List Char) :
    decodePlayer (colorVal p ++ r) = some (p, r) := by
  cases p <;> rfl

theorem decodeBool_encode (x : Bool) (r : List Char) :
    decodeBool (boolStr x ++ r) = some (x, r) := by
  cases x <;> rfl

theorem decodeCastling_encode (cr : CastlingRights) (r : List Char) :
    decodeCastling (castlingStr cr ++ r) = some (cr, r) := by
  obtain ⟨⟨wk, wq⟩, ⟨bk, bq⟩⟩ := cr
  simp only [castlingStr, List.append_assoc, decodeCastling, dropChunk_pre]
  cases wk <;> cases wq <;> cases bk <;> cases bq <;> rfl

theorem decodeSquares_encode :
    ∀ (l : List (Option (Color × PieceType))) (rest : List Char),
      decodeSquares l.length (l.flatMap encodeSquareKey ++ rest) = some (l, rest) := by
  intro l
  induction l with
  | nil => intro rest; rfl
  | cons o t ih =>
    intro rest
    match o with
    | none =>
      simp only [List.flatMap_cons, encodeSquareKey, List.length_cons, List.cons_append,
        List.append_assoc, List.nil_append]
      simp [decodeSquares, ih]
    | some (co, ty) =>
      simp only [List.flatMap_cons, encodeSquareKey, List.length_cons, List.cons_append,
        List.append_assoc, List.nil_append]
      cases co <;> cases ty <;> (rw [decodeSquares]; rw [ih]; rfl)

theorem int_digit_str (n : Int) (h0 : 0 ≤ n) (h8 : n < 8) :
    intStr n = [Char.ofNat (48 + n.toNat)] := by
  interval_cases n <;> rfl

theorem decodeEp_encode (ep : Option (Int × Int))
    (h : match ep with
         | none => True
         | some rc => 0 ≤ rc.1 ∧ rc.1 < 8 ∧ 0 ≤ rc.2 ∧ rc.2 < 8) :
    decodeEp (epStr ep) = some (ep, []) := by
  match ep with
  | none => rfl
  | some (a, d) =>
    obtain ⟨h1, h2, h3, h4⟩ := h
    simp only [epStr, int_digit_str a h1 h2, int_digit_str d h3 h4]
    interval_cases a <;> interval_cases d <;> rfl

theorem epInRange_shape (b : ChessBoard) (h : epInRange b = true) :
    match b.en_passant_target with
    | none => True
    | some rc => 0 ≤ rc.1 ∧ rc.1 < 8 ∧ 0 ≤ rc.2 ∧ rc.2 < 8 := by
  unfold epInRange at h
  match hc : b.en_passant_target with
  | none => trivial
  | some rc => rw [hc] at h; simpa using h

/-- Decoding recovers every component the position key was built from:
the key string determines placement, side to move, castling rights and the
en-passant target. -/
theorem decode_position_key (b : ChessBoard) (h : epInRange b = true) :
    decodeKey (get_position_key b) =
      some (placementList b, b.current_player, b.castling_rights, b.en_passant_target) := by
  have hlen : (placementList b).length = 64 := by
    simp only [placementList, List.length_map]
    rfl
  unfold decodeKey get_position_key
  rw [List.append_assoc, List.append_assoc, ← hlen, decodeSquares_encode]
  simp only []
  rw [decodePlayer_encode]
  simp only []
  rw [decodeCastling_encode]
  simp only []
  rw [decodeEp_encode b.en_passant_target (epInRange_shape b h)]

theorem list_getD_set_self {α : Type} :
    ∀ (l : List α) (n : Nat) (v d : α), n < l.length → (l.set n v).getD n d = v := by
  intro l
  induction l with
  | nil => intro n v d h; simp at h
  | cons x xs ih =>
    intro n v d h
    cases n with
    | zero => rfl
    | succ m =>
      simp only [List.set_cons_succ, List.getD_cons_succ]
      exact ih m v d (by simpa using h)

theorem list_mem_set {α : Type} :
    ∀ (l : List α) (n : Nat) (v x : α), x ∈ l.set n v → x = v ∨ x ∈ l := by
  intro l
  induction l with
  | nil => intro n v x h; simp at h
  | cons y ys ih =>
    intro n v x h
    cases n with
    | zero =>
      rcases List.mem_cons.mp h with h1 | h1
      · exact Or.inl h1
      · exact Or.inr (List.mem_cons_of_mem y h1)
    | succ m =>
      rcases List.mem_cons.mp h with h1 | h1
      · exact Or.inr (h1 ▸ List.mem_cons_self y ys)
      · rcases ih m v x h1 with h2 | h2
        · exact Or.inl h2
        · exact Or.inr (List.mem_cons_of_mem y h2)

theorem wf_setSq (g : Grid) (r c : Int) (v : Option Piece) (h : wfGrid g) :
    wfGrid (setSq g r c v) := by
  unfold setSq
  split
  next hcond =>
    obtain ⟨h1, h2⟩ := h
    refine ⟨by simpa using h1, ?_⟩
    intro row hrow
    rcases list_mem_set _ _ _ _ hrow with h3 | h3
    · subst h3
      rw [List.length_set]
      have hrn : r.toNat < g.length := by omega
      exact h2 _ (List.getD_eq_getElem g [] hrn ▸ List.getElem_mem hrn)
    · exact h2 _ h3
  next => exact h

theorem getSq_setSq_self (g : Grid) (r c : Int) (v : Option Piece) (h : wfGrid g)
    (hr0 : 0 ≤ r) (hr8 : r < 8) (hc0 : 0 ≤ c) (hc8 : c < 8) :
    getSq (setSq g r c v) r c = v := by
  obtain ⟨h1, h2⟩ := h
  unfold getSq setSq
  rw [if_pos ⟨hr0, hr8, hc0, hc8⟩, if_pos ⟨hr0, hr8, hc0, hc8⟩]
  have hrn : r.toNat < g.length := by omega
  have hrow : (g.getD r.toNat []).length = 8 :=
    h2 _ (List.getD_eq_getElem g [] hrn ▸ List.getElem_mem hrn)
  rw [list_getD_set_self g r.toNat _ [] hrn]
  exact list_getD_set_self _ c.toNat v none (by omega)

theorem threats_body (b : ChessBoard) (score : Int) (rc : Int × Int) :
    threatStep b score rc = score + threatTermAmended b rc := by
  unfold threatStep threatTermAmended
  cases hg : getSq b.board rc.1 rc.2 with
  | none => simp
  | some piece =>
    dsimp only
    split_ifs <;> ring

theorem find_checkmate_sound (b : ChessBoard) :
    ∀ (l : List (Int × Int × Int × Int)) (m : Int × Int × Int × Int),
      m ∈ l → (applyMove b m).1 = true → is_checkmate (applyMove b m).2 = true →
      ∃ m', find_checkmate_move b l = some m' ∧
        (applyMove b m').1 = true ∧ is_checkmate (applyMove b m').2 = true := by
  intro l
  induction l with
  | nil => intro m h _ _; simp at h
  | cons x xs ih =>
    intro m hm h1 h2
    by_cases hx : (applyMove b x).1 = true ∧ is_checkmate (applyMove b x).2 = true
    · refine ⟨x, ?_, hx.1, hx.2⟩
      simp only [find_checkmate_move]
      rw [if_pos hx]
    · have hmx : m ≠ x := by rintro rfl; exact hx ⟨h1, h2⟩
      have hm' : m ∈ xs := by
        rcases List.mem_cons.mp hm with h | h
        · exact absurd h hmx
        · exact h
      obtain ⟨m', hfind, hp1, hp2⟩ := ih m hm' h1 h2
      refine ⟨m', ?_, hp1, hp2⟩
      simp only [find_checkmate_move]
      rw [if_neg hx]
      exact hfind

/-! Claim theorems. -/

/-- Claim C1: `make_move` must reject every request that is not in the current
legal-move set and leave the board unchanged.  The code violates this: from
the standard starting position with White to move, moving Black's e7 pawn one
square (from (1,4) to (2,4)) and pushing White's a2 pawn three squares (from
(6,0) to (3,0)) both succeed and mutate the board, although neither request is
in the legal-move set.  `_is_legal_move` only simulates the move and tests for
self-check; it never checks piece ownership or movement rules. -/
theorem C1_make_move_accepts_requests_outside_legal_set :
    (make_move initial_board 1 4 2 4 none none).1 = true ∧
    (1, 4, 2, 4) ∉ get_all_legal_moves initial_board ∧
    (make_move initial_board 1 4 2 4 none none).2 ≠ initial_board ∧
    (make_move initial_board 6 0 3 0 none none).1 = true ∧
    (6, 0, 3, 0) ∉ get_all_legal_moves initial_board := by
  decide

/-- Claim C2: all four insufficient-material configurations must be scored a
draw.  The code detects K vs K (first conjunct) but answers `false` and
`in_progress` for K+B vs K+B with same-colored bishops and for K+N vs K+N:
the corresponding branches are absent from `is_insufficient_material`. -/
theorem C2_insufficient_material_cases_missing :
    is_insufficient_material kkBase = true ∧
    is_insufficient_material insuffBB = false ∧
    get_game_result insuffBB = IN_PROGRESS ∧
    is_insufficient_material insuffNN = false ∧
    get_game_result insuffNN = IN_PROGRESS := by
  decide

/-- Claim C3: the terminal entry of `position_history` must describe the
current position.  The code appends `_get_position_key()` before switching
`current_player`, so after the reachable move e2e4 from the starting position
the recorded terminal entry carries side-to-move "white" while the current
position's key carries "black": the two strings differ. -/
theorem C3_position_history_terminal_entry_mismatch :
    (make_move initial_board 6 4 4 4 none none).1 = true ∧
    (make_move initial_board 6 4 4 4 none none).2.position_history.getLastD [] ≠
      get_position_key (make_move initial_board 6 4 4 4 none none).2 := by
  decide

/-- Claim C4: a pawn move reaching the last rank must generate four distinct
Promotion moves.  On a board where White's a7 pawn can promote, the generated
legal-move list contains exactly one bare 4-tuple for that from/to pair (and
no promotion-kind markers exist in the move representation at all). -/
theorem C4_promotion_generates_single_plain_move :
    ((get_all_legal_moves promoBoard).filter (fun m => m = (1, 0, 0, 0))).length = 1 ∧
    get_all_legal_moves promoBoard = [(1, 0, 0, 0), (7, 7, 6, 6), (7, 7, 6, 7), (7, 7, 7, 6)] := by
  decide

/-- Claim C5 counterexample: on `threatBoard` the only threatened piece is the
white pawn on e4 (one attacker, no defenders), so the claimed rule demands a
hanging-piece penalty of 0.9 × 100 = 90, i.e. a threat term of −90; the code
computes 100 // 10 = 10, i.e. −10. -/
theorem C5_counterexample :
    evaluate_threats threatBoard = -10 ∧ evaluate_threats threatBoard ≠ -90 := by
  decide

/-- Claim C5 (amended): the threat term penalises the holder of every piece
that has at least one attacker and strictly more attackers than defenders by
one tenth (integer division) of the piece's material value; there is no
hanging-piece 0.9 term, no 0.6 term, and no 0.3 exchange credit. -/
theorem C5_threats_amended (b : ChessBoard) : evaluate_threats b = threatsAmendedSpec b := by
  have main : ∀ (l : List (Int × Int)) (a : Int),
      l.foldl (threatStep b) a = a + (l.map (threatTermAmended b)).sum := by
    intro l
    induction l with
    | nil => intro a; simp
    | cons x xs ih =>
      intro a
      simp only [List.foldl_cons, List.map_cons, List.sum_cons]
      rw [ih, threats_body]
      ring
  unfold evaluate_threats threatsAmendedSpec
  rw [main squares 0]
  ring

/-- Claim C6 counterexample: on `checkBoard` White is in check and not
checkmated, so the claimed rule prices the check at 500 for the side to move
(term −500); the code computes −50. -/
theorem C6_counterexample :
    evaluate_check_and_mate checkBoard = -50 ∧ evaluate_check_and_mate checkBoard ≠ -500 := by
  decide

/-- Claim C6 (amended): the check-and-mate term contributes 100 000 against a
checkmated side to move (in check with no legal moves), 50 — not 500 —
against a side to move that is merely in check, and 0 otherwise. -/
theorem C6_check_and_mate_amended (b : ChessBoard) :
    (is_in_check b b.current_player = false → evaluate_check_and_mate b = 0) ∧
    (is_in_check b b.current_player = true → get_all_legal_moves b = [] →
      evaluate_check_and_mate b = if b.current_player = WHITE then -100000 else 100000) ∧
    (is_in_check b b.current_player = true → get_all_legal_moves b ≠ [] →
      evaluate_check_and_mate b = if b.current_player = WHITE then -50 else 50) := by
  unfold evaluate_check_and_mate is_checkmate
  refine ⟨?_, ?_, ?_⟩
  · intro h; simp [h]
  · intro h hl; simp [h, hl]
  · intro h hl
    rw [if_neg (by simp [h, hl]), if_pos h]

/-- Witness for C6: the amended theorem applied to the concrete in-check
position. -/
theorem C6_check_and_mate_witness : evaluate_check_and_mate checkBoard = -50 :=
  ((C6_check_and_mate_amended checkBoard).2.2 (by decide) (by decide)).trans (by decide)

/-- Claim C7: whenever some legal move, applied to a copy, yields checkmate,
the search entry point returns a mating move via the mate-in-one shortcut,
whatever the tree search (`tree`) would have returned. -/
theorem C7_mate_in_one_shortcut (b : ChessBoard) (m : Int × Int × Int × Int)
    (tree : ChessBoard → Option (Int × Int × Int × Int))
    (hm : m ∈ get_all_legal_moves b) (h1 : (applyMove b m).1 = true)
    (h2 : is_checkmate (applyMove b m).2 = true) :
    ∃ m', search_with tree b = some m' ∧ (applyMove b m').1 = true ∧
      is_checkmate (applyMove b m').2 = true := by
  obtain ⟨m', hf, hp1, hp2⟩ := find_checkmate_sound b (get_all_legal_moves b) m hm h1 h2
  refine ⟨m', ?_, hp1, hp2⟩
  unfold search_with
  rw [if_neg (List.ne_nil_of_mem hm), hf]

/-- Witness for C7: on `mateInOne` the queen move to b2 mates, and the search
returns a mating move even with a tree search that would return nothing. -/
theorem C7_mate_in_one_witness :
    ∃ m', search_with (fun _ => none) mateInOne = some m' ∧
      (applyMove mateInOne m').1 = true ∧ is_checkmate (applyMove mateInOne m').2 = true :=
  C7_mate_in_one_shortcut mateInOne (6, 3, 6, 1) (fun _ => none)
    (by decide) (by decide) (by decide)

/-- Claim C8: two boards (with board-shaped en-passant targets) have equal
position keys iff their piece placement (color and kind per square), side to
move, castling rights and en-passant target all agree; and the move counters
never affect the key. -/
theorem C8_position_key_iff (b1 b2 : ChessBoard)
    (h1 : epInRange b1 = true) (h2 : epInRange b2 = true) :
    (get_position_key b1 = get_position_key b2 ↔
      (placementList b1 = placementList b2 ∧ b1.current_player = b2.current_player ∧
        b1.castling_rights = b2.castling_rights ∧
        b1.en_passant_target = b2.en_passant_target)) ∧
    (∀ hm fm : Nat,
      get_position_key { b1 with halfmove_clock := hm, fullmove_number := fm } =
        get_position_key b1) := by
  constructor
  · constructor
    · intro h
      have d1 := decode_position_key b1 h1
      have d2 := decode_position_key b2 h2
      rw [h, d2] at d1
      simp only [Option.some.injEq, Prod.mk.injEq] at d1
      exact ⟨d1.1.symm, d1.2.1.symm, d1.2.2.1.symm, d1.2.2.2.symm⟩
    · rintro ⟨e1, e2, e3, e4⟩
      simp only [get_position_key, e1, e2, e3, e4]
  · intro hm fm
    rfl

/-- Witness for C8: the starting position and the same position with altered
move counters have equal keys. -/
theorem C8_position_key_witness :
    get_position_key initial_board_counters = get_position_key initial_board :=
  ((C8_position_key_iff initial_board_counters initial_board (by decide) (by decide)).1).mpr
    (by decide)

/-- Claim C9: `get_ai_move` consults the engine exactly when the session is
human-vs-AI with Black to move; in every other state — in particular whenever
White is to move — it answers `none` for every engine, so the engine never
chooses a move for White. -/
theorem C9_ai_move_only_black_hva (s : GameSession)
    (engine : ChessBoard → Option (Int × Int × Int × Int)) :
    ((s.mode = HUMAN_VS_AI ∧ s.board.current_player = BLACK) →
      get_ai_move s engine = engine s.board) ∧
    (¬(s.mode = HUMAN_VS_AI ∧ s.board.current_player = BLACK) →
      ∀ engine2 : ChessBoard → Option (Int × Int × Int × Int),
        get_ai_move s engine2 = none) ∧
    (s.board.current_player = WHITE → get_ai_move s engine = none) := by
  refine ⟨fun h => ?_, fun h e2 => ?_, fun hw => ?_⟩
  · unfold get_ai_move; exact if_pos h
  · unfold get_ai_move; exact if_neg h
  · unfold get_ai_move
    rw [if_neg]
    rintro ⟨-, hb⟩
    rw [hw] at hb
    exact Color.noConfusion hb

/-- Witness for C9: a human-vs-AI session with White to move gets no AI
move. -/
theorem C9_ai_move_witness : get_ai_move whiteAiSession stubEngine = none :=
  (C9_ai_move_only_black_hva whiteAiSession stubEngine).2.2 (by decide)

/-- Claim C10: whenever `make_move` succeeds with a pawn arriving on row 0 or
row 7, the destination ends up holding a fresh piece of the pawn's color with
`has_moved` true whose kind is named by the promotion letter (Q/R/B/N,
case-insensitive) and defaults to queen when the letter is absent, empty or
unrecognised. -/
theorem C10_promotion_replacement (b : ChessBoard) (fr fc tr tc : Int)
    (smt pp : Option (List Char)) (p : Piece)
    (hwf : wfGrid b.board) (hp : getSq b.board fr fc = some p) (hpt : p.type = PAWN)
    (htr : tr = 0 ∨ tr = 7) (htc0 : 0 ≤ tc) (htc8 : tc < 8)
    (hs : (make_move b fr fc tr tc smt pp).1 = true) :
    getSq (make_move b fr fc tr tc smt pp).2.board tr tc =
      some ⟨promoType pp, p.color, true⟩ := by
  have htr0 : 0 ≤ tr := by rcases htr with h | h <;> omega
  have htr8 : tr < 8 := by rcases htr with h | h <;> omega
  by_cases hleg : is_legal_move b fr fc tr tc = true
  case neg =>
    exfalso
    unfold make_move at hs
    rw [if_pos (by simpa using hleg)] at hs
    simp at hs
  case pos =>
    unfold make_move
    rw [if_neg (by simpa using hleg), hp]
    dsimp only
    unfold make_move_unchecked
    rw [show getSq b.board fr fc = some p from hp]
    dsimp only
    rw [if_neg (by simp [hpt])]
    rw [if_neg (by simp [hpt])]
    rw [if_pos ⟨hpt, htr⟩]
    apply getSq_setSq_self _ _ _ _ _ htr0 htr8 htc0 htc8
    apply wf_setSq
    apply wf_setSq
    repeat' split
    all_goals repeat apply wf_setSq
    all_goals exact hwf

/-- Witness for C10: promoting White's a7 pawn with marker "n" yields a white
knight with `has_moved` set on a1's promotion square (0,0). -/
theorem C10_promotion_witness :
    getSq (make_move promoBoard 1 0 0 0 none (some ['n'])).2.board 0 0 =
      some ⟨KNIGHT, WHITE, true⟩ :=
  C10_promotion_replacement promoBoard 1 0 0 0 none (some ['n']) ⟨PAWN, WHITE, true⟩
    ⟨rfl, by decide⟩ (by decide) rfl (Or.inl rfl) (by decide) (by decide) (by decide)
